import Mathlib

/-!
# Verification of `WeightDropLayerNormBasicLSTMCell`
  (open_seq2seq/parts/rnns/weight_drop.py)

A shallow embedding of the LSTM cell with layer normalization and
weight/recurrent dropout. Tensors are modelled as row-major lists of rows of
rationals (`List (List ℚ)`); a row is a `List ℚ`. The external numeric engine
(TensorFlow) supplies `sigmoid`, the layer-normalization primitive and the
random dropout primitive; these are modelled as an abstract record `TFEngine`
whose function fields stand for the engine's primitives (the dropout field
stands for one invocation's sampled outcome, so two distinct engines model two
independent random draws). Scalars use exact rationals: the Python floats that
appear in the cell's control flow (keep probabilities compared against `1`)
are exact there, and all claims under study are about dataflow and control
flow, not rounding.
-/

/-- A row-major matrix of rationals. -/
abbrev Mat : Type := List (List ℚ)

/-- The static width of a tensor (its last dimension), read off the first
row, as `get_shape()` would report it for a well-formed tensor. -/
def numCols (t : Mat) : ℕ := (t.headD []).length

/-- Dot product of two rows. -/
def dotProd (xs ys : List ℚ) : ℚ := (List.zipWith (· * ·) xs ys).sum

/-- Column `j` of a matrix (missing entries read as 0; they never arise on
well-formed shapes). -/
def getCol (w : Mat) (j : ℕ) : List ℚ := w.map (fun r => r.getD j 0)

/-- `tf.matmul a w`: entry `(b, j)` is the dot product of row `b` of `a`
with column `j` of `w`. -/
def matmul (a w : Mat) : Mat :=
  a.map (fun row => (List.range (numCols w)).map (fun j => dotProd row (getCol w j)))

/-- `tf.concat([x, h], 1)`: concatenate along the feature axis. -/
def concatCols (x h : Mat) : Mat := List.zipWith (· ++ ·) x h

/-- Apply an elementwise function to a tensor. -/
def mapMat (f : ℚ → ℚ) (t : Mat) : Mat := t.map (List.map f)

/-- Broadcast addition of a scalar (`f + forget_bias`). -/
def addConstMat (t : Mat) (b : ℚ) : Mat := mapMat (· + b) t

/-- Elementwise product of two tensors. -/
def mulMat (a b : Mat) : Mat := List.zipWith (List.zipWith (· * ·)) a b

/-- Elementwise sum of two tensors. -/
def addMat (a b : Mat) : Mat := List.zipWith (List.zipWith (· + ·)) a b

/-- `tf.nn.bias_add`: add a bias row to every row. -/
def biasAdd (t : Mat) (bias : List ℚ) : Mat :=
  t.map (fun r => List.zipWith (· + ·) r bias)

/-- `tf.split(value, num_or_size_splits=4, axis=1)`: four equal contiguous
blocks of the feature axis, each of the tensor's static width divided by 4. -/
def split4 (t : Mat) : Mat × Mat × Mat × Mat :=
  let n := numCols t / 4
  (t.map (fun r => r.take n),
   t.map (fun r => (r.drop n).take n),
   t.map (fun r => (r.drop (2 * n)).take n),
   t.map (fun r => (r.drop (3 * n)).take n))

/-- `tf.split(weights, [a, b], axis=0)`: split the rows into a first block of
`a` rows and a second block of `b` rows. -/
def splitRows2 (w : Mat) (a b : ℕ) : Mat × Mat := (w.take a, (w.drop a).take b)

/-- A Python scalar value as it can be supplied for a keep probability:
a `float`, an `int`, or a (non-constant) scalar tensor. -/
inductive PyVal : Type where
  | float (q : ℚ)
  | int (z : ℤ)
  | tensor
deriving DecidableEq, Repr

/-- `isinstance(p, float)` for the modelled Python scalars. -/
def PyVal.is_float : PyVal → Bool
  | .float _ => true
  | _ => false

/-- The numeric precision tag (`dtype` argument); only presence or absence
matters to the cell's control flow. -/
inductive DType : Type where
  | float32
  | float16
deriving DecidableEq, Repr

/-- The external numeric-computation engine (TensorFlow) as consumed by the
cell: `sigmoid`, the layer-normalization primitive (`tf.contrib.layers.`
`layer_norm`, keyed by the variable scope it reads its gain/shift from), and
the random dropout primitive (`tf.nn.dropout`). The dropout field models the
sampled outcome of one random draw; its arguments are the target tensor, the
keep probability and the optional seed. Both tensor primitives preserve the
row lengths of their argument, which is recorded as a proof field. -/
structure TFEngine : Type where
  sigmoid : ℚ → ℚ
  layer_norm : String → Mat → Mat
  dropout : Mat → PyVal → Option ℤ → Mat
  layer_norm_shape : ∀ s t, (layer_norm s t).map List.length = t.map List.length
  dropout_shape : ∀ t p s, (dropout t p s).map List.length = t.map List.length

/-- The constructor arguments of `WeightDropLayerNormBasicLSTMCell.__init__`.
`num_units` is an arbitrary Python `int` (no validation is performed on it),
the activation is an arbitrary elementwise function. -/
structure Config : Type where
  num_units : ℤ
  forget_bias : ℚ := 1
  activation : ℚ → ℚ
  layer_norm : Bool := true
  norm_gain : ℚ := 1
  norm_shift : ℚ := 0
  recurrent_keep_prob : PyVal := .float 1
  input_weight_keep_prob : PyVal := .float 1
  recurrent_weight_keep_prob : PyVal := .float 1
  dropout_seed : Option ℤ := none
  weight_variational : Bool := false
  reuse : Option Bool := none
  dtype : Option DType := none

/-- The constructed cell: the instance attributes set by `__init__`,
including the two noise tensors `_input_weight_noise` and
`_recurrent_weight_noise` (whose generation machinery is commented out, so
they can only ever hold `none`). -/
structure Cell : Type where
  num_units : ℤ
  forget_bias : ℚ
  activation : ℚ → ℚ
  layer_norm : Bool
  norm_gain : ℚ
  norm_shift : ℚ
  recurrent_keep_prob : PyVal
  input_weight_keep_prob : PyVal
  recurrent_weight_keep_prob : PyVal
  dropout_seed : Option ℤ
  weight_variational : Bool
  reuse : Option Bool
  dtype : Option DType
  input_weight_noise : Option Unit
  recurrent_weight_noise : Option Unit

namespace WeightDropLayerNormBasicLSTMCell

/-- `__init__`: copies every argument into the corresponding attribute, sets
both noise tensors to `None`, and raises a `ValueError` iff
`weight_variational` is true while `dtype` is `None`.  No other validation
is performed. -/
def init (cfg : Config) : Except String Cell :=
  if cfg.weight_variational ∧ cfg.dtype = none then
    .error "When weight_variational=True, dtype must be provided"
  else
    .ok { num_units := cfg.num_units
          forget_bias := cfg.forget_bias
          activation := cfg.activation
          layer_norm := cfg.layer_norm
          norm_gain := cfg.norm_gain
          norm_shift := cfg.norm_shift
          recurrent_keep_prob := cfg.recurrent_keep_prob
          input_weight_keep_prob := cfg.input_weight_keep_prob
          recurrent_weight_keep_prob := cfg.recurrent_weight_keep_prob
          dropout_seed := cfg.dropout_seed
          weight_variational := cfg.weight_variational
          reuse := cfg.reuse
          dtype := cfg.dtype
          input_weight_noise := none
          recurrent_weight_noise := none }

/-- `state_size`: the `LSTMStateTuple(num_units, num_units)` shape
declaration. -/
def state_size (cell : Cell) : ℤ × ℤ :=
  (cell.num_units, cell.num_units)

/-- `output_size`: declares the output width as `num_units`. -/
def output_size (cell : Cell) : ℤ :=
  cell.num_units

/-- `_should_drop(p) = (not isinstance(p, float)) or p < 1`, with Python's
short-circuit `or`: a non-float is always dropped; a float is dropped iff
its value is strictly below 1. -/
def should_drop (p : PyVal) : Bool :=
  match p with
  | .float q => decide (q < 1)
  | _ => true

end WeightDropLayerNormBasicLSTMCell

/-- The trainable parameters read from the external variable store by
`_linear`: the `"kernel"` weight matrix and, when layer normalization is
disabled, the `"bias"` vector.  (The per-gate `gamma`/`beta` vectors live
behind the engine's layer-normalization primitive.) -/
structure Params : Type where
  kernel : Mat
  bias : List ℚ

namespace WeightDropLayerNormBasicLSTMCell

/-- `_norm(inp, scope)`: declares the `gamma`/`beta` variables (a side
effect on the external variable store, outside this model) and applies the
engine's layer-normalization primitive under the given scope. -/
def norm (e : TFEngine) (inp : Mat) (scope : String) : Mat :=
  e.layer_norm scope inp

/-- `_variational_dropout(values, noise, keep_prob)`: the pre-calculated
noise mask is never consulted (that code is commented out); the body is a
plain call of `tf.nn.dropout(values, keep_prob, seed)`. -/
def variational_dropout (cell : Cell) (e : TFEngine) (values : Mat)
    (noise : Option Unit) (keep_prob : PyVal) : Mat :=
  e.dropout values keep_prob cell.dropout_seed

/-- `_dropout(values, dropout_noise, keep_prob)`: standard
`tf.nn.dropout` when `weight_variational` is false, otherwise
`_variational_dropout`. -/
def dropout (cell : Cell) (e : TFEngine) (values : Mat)
    (dropout_noise : Option Unit) (keep_prob : PyVal) : Mat :=
  if ¬ cell.weight_variational then
    e.dropout values keep_prob cell.dropout_seed
  else
    variational_dropout cell e values dropout_noise keep_prob

/-- Lines 129–138 of `_linear`: fetch the `"kernel"` matrix, split its rows
into the input block `w` (`inputs_shape` rows) and the recurrent block `u`
(`h_shape` rows), apply `_dropout` to each block when its keep probability
is active, and re-concatenate. -/
def droppedKernel (cell : Cell) (e : TFEngine) (params : Params)
    (inputs_shape h_shape : ℕ) : Mat :=
  let weights := params.kernel
  let wu := splitRows2 weights inputs_shape h_shape
  let w :=
    if should_drop cell.input_weight_keep_prob then
      dropout cell e wu.1 cell.input_weight_noise cell.input_weight_keep_prob
    else wu.1
  let u :=
    if should_drop cell.recurrent_weight_keep_prob then
      dropout cell e wu.2 cell.recurrent_weight_noise cell.recurrent_weight_keep_prob
    else wu.2
  w ++ u

/-- `_linear(args, inputs_shape, h_shape)`: project `args` through the
(possibly weight-dropped) kernel, and add the `"bias"` vector exactly when
layer normalization is disabled. -/
def linear (cell : Cell) (e : TFEngine) (params : Params) (args : Mat)
    (inputs_shape h_shape : ℕ) : Mat :=
  let out := matmul args (droppedKernel cell e params inputs_shape h_shape)
  if ¬ cell.layer_norm then biasAdd out params.bias else out

/-- `call(inputs, state)`: one step of the cell.  Concatenates `inputs` and
`h`, runs `_linear`, splits the pre-activation into `i, j, f, o`, optionally
layer-normalizes each gate, computes `g` with optional recurrent dropout,
forms `new_c` and optionally normalizes it under the `"state"` scope, forms
`new_h`, and returns `(new_h, LSTMStateTuple(new_c, new_h))`. -/
def call (cell : Cell) (e : TFEngine) (params : Params) (inputs : Mat)
    (state : Mat × Mat) : Mat × (Mat × Mat) :=
  let c := state.1
  let h := state.2
  let args := concatCols inputs h
  let concat := linear cell e params args (numCols inputs) (numCols h)
  let ijfo := split4 concat
  let i := if cell.layer_norm then norm e ijfo.1 "input" else ijfo.1
  let j := if cell.layer_norm then norm e ijfo.2.1 "transform" else ijfo.2.1
  let f := if cell.layer_norm then norm e ijfo.2.2.1 "forget" else ijfo.2.2.1
  let o := if cell.layer_norm then norm e ijfo.2.2.2 "output" else ijfo.2.2.2
  let g0 := mapMat cell.activation j
  let g :=
    if should_drop cell.recurrent_keep_prob then
      e.dropout g0 cell.recurrent_keep_prob cell.dropout_seed
    else g0
  let new_c0 :=
    addMat (mulMat c (mapMat e.sigmoid (addConstMat f cell.forget_bias)))
      (mulMat (mapMat e.sigmoid i) g)
  let new_c := if cell.layer_norm then norm e new_c0 "state" else new_c0
  let new_h := mulMat (mapMat cell.activation new_c) (mapMat e.sigmoid o)
  (new_h, (new_c, new_h))

end WeightDropLayerNormBasicLSTMCell

/-! ## Concrete instances used to evaluate the theorems -/

/-- An engine whose primitives are identity functions: one possible
behaviour of the external engine, used to evaluate theorems on concrete
inputs. -/
def engId : TFEngine where
  sigmoid := fun q => q
  layer_norm := fun _ t => t
  dropout := fun t _ _ => t
  layer_norm_shape := fun _ _ => rfl
  dropout_shape := fun _ _ _ => rfl

/-- An engine whose dropout primitive zeroes its whole argument: one
possible sampled outcome of the random dropout primitive. -/
def engZero : TFEngine where
  sigmoid := fun q => q
  layer_norm := fun _ t => t
  dropout := fun t _ _ => mapMat (fun _ => 0) t
  layer_norm_shape := fun _ _ => rfl
  dropout_shape := fun t _ _ => by
    simp [mapMat, List.map_map, Function.comp]

/-- A concrete cell with `num_units = 1`, no layer normalization and every
keep probability equal to the float `1.0`. -/
def sampleCell : Cell where
  num_units := 1
  forget_bias := 1
  activation := fun q => q
  layer_norm := false
  norm_gain := 1
  norm_shift := 0
  recurrent_keep_prob := .float 1
  input_weight_keep_prob := .float 1
  recurrent_weight_keep_prob := .float 1
  dropout_seed := none
  weight_variational := false
  reuse := none
  dtype := none
  input_weight_noise := none
  recurrent_weight_noise := none

/-- Concrete parameters for `num_units = 1`, input width 1: a 2 × 4 kernel
and a zero bias row. -/
def paramsTiny : Params where
  kernel := [[1, 1, 0, 0], [0, 0, 0, 0]]
  bias := [0, 0, 0, 0]

/-- A concrete 1 × 1 input holding the value 1. -/
def inTiny : Mat := [[1]]

/-- A concrete 1 × 1 zero tensor (used as zero state). -/
def zTiny : Mat := [[0]]

/-! ## Helper lemmas -/

open WeightDropLayerNormBasicLSTMCell

/-- Both branches of `_dropout` reduce to one call of the engine's
`tf.nn.dropout` with the cell's seed; the noise tensor is never consulted. -/
theorem dropout_eq (cell : Cell) (e : TFEngine) (values : Mat)
    (noise : Option Unit) (keep : PyVal) :
    dropout cell e values noise keep = e.dropout values keep cell.dropout_seed := by
  by_cases h : cell.weight_variational <;>
    simp [dropout, variational_dropout, h]

/-- A member of a `zipWith` comes from members of the two lists. -/
theorem mem_zipWith {α β γ : Type} {f : α → β → γ} :
    ∀ {l1 : List α} {l2 : List β} {c : γ}, c ∈ List.zipWith f l1 l2 →
      ∃ a ∈ l1, ∃ b ∈ l2, c = f a b
  | [], _, _, h => by simp at h
  | _ :: _, [], _, h => by simp at h
  | a :: l1, b :: l2, c, h => by
    rcases List.mem_cons.mp h with h | h
    · exact ⟨a, List.mem_cons_self a l1, b, List.mem_cons_self b l2, h⟩
    · obtain ⟨x, hx, y, hy, hc⟩ := mem_zipWith h
      exact ⟨x, List.mem_cons_of_mem _ hx, y, List.mem_cons_of_mem _ hy, hc⟩

/-- Row-length transfer along a shape-preserving operation: if an operation
preserves the list of row lengths, it preserves "every row has length m". -/
theorem rows_of_shape_eq {t t' : Mat}
    (hsh : t'.map List.length = t.map List.length) {m : ℕ}
    (h : ∀ r ∈ t, r.length = m) : ∀ r ∈ t', r.length = m := by
  intro r hr
  have : r.length ∈ t.map List.length := hsh ▸ List.mem_map_of_mem List.length hr
  obtain ⟨s, hs, hlen⟩ := List.mem_map.mp this
  exact hlen ▸ h s hs

/-- Length transfer along a shape-preserving operation. -/
theorem length_of_shape_eq {t t' : Mat}
    (hsh : t'.map List.length = t.map List.length) : t'.length = t.length := by
  have := congrArg List.length hsh
  simpa using this

/-- `zipWith` against an appended list splits at the first block's length. -/
theorem zipWith_append_right {α : Type} (f : α → α → α) :
    ∀ (xs a b : List α),
      List.zipWith f xs (a ++ b) =
        List.zipWith f (xs.take a.length) a ++ List.zipWith f (xs.drop a.length) b
  | xs, [], b => by simp
  | [], _ :: _, _ => by simp
  | x :: xs, a0 :: a, b => by
    simp [zipWith_append_right f xs a b]

/-- Dot product against an appended column splits into the two blocks. -/
theorem dotProd_append (xs a b : List ℚ) :
    dotProd xs (a ++ b) =
      dotProd (xs.take a.length) a + dotProd (xs.drop a.length) b := by
  simp [dotProd, zipWith_append_right]

/-- Rows of a `matmul` all have the width of the weight matrix. -/
theorem mem_matmul_length {args w : Mat} {r : List ℚ} (hr : r ∈ matmul args w) :
    r.length = numCols w := by
  unfold matmul at hr
  obtain ⟨row, _, rfl⟩ := List.mem_map.mp hr
  simp

/-- `matmul` has one output row per input row. -/
theorem matmul_length (args w : Mat) : (matmul args w).length = args.length := by
  simp [matmul]

/-- Width of a nonempty matrix with constant row length. -/
theorem numCols_eq_of_rows {t : Mat} {m : ℕ} (hne : t ≠ [])
    (h : ∀ r ∈ t, r.length = m) : numCols t = m := by
  cases t with
  | nil => exact absurd rfl hne
  | cons a l => exact h a (List.mem_cons_self a l)

/-- A weight block passed through the conditional `_dropout` keeps its row
lengths. -/
theorem rows_after_drop {cell : Cell} {e : TFEngine} {t : Mat}
    {noise : Option Unit} {p : PyVal} {m : ℕ} (h : ∀ r ∈ t, r.length = m) :
    ∀ r ∈ (if should_drop p then dropout cell e t noise p else t),
      r.length = m := by
  cases hsd : should_drop p with
  | false => simpa [hsd] using h
  | true =>
      simpa [hsd, dropout_eq] using
        rows_of_shape_eq (e.dropout_shape t p cell.dropout_seed) h

/-- A weight block passed through the conditional `_dropout` keeps its
number of rows. -/
theorem length_after_drop {cell : Cell} {e : TFEngine} {t : Mat}
    {noise : Option Unit} {p : PyVal} :
    (if should_drop p then dropout cell e t noise p else t).length =
      t.length := by
  cases hsd : should_drop p with
  | false => simp [hsd]
  | true =>
      simp [hsd, dropout_eq,
        length_of_shape_eq (e.dropout_shape t p cell.dropout_seed)]

/-- Rows of the dropped kernel keep the kernel's row width. -/
theorem droppedKernel_rows (cell : Cell) (e : TFEngine) (params : Params)
    (D Nh : ℕ) {m : ℕ} (hker : ∀ r ∈ params.kernel, r.length = m) :
    ∀ r ∈ droppedKernel cell e params D Nh, r.length = m := by
  intro r hr
  simp only [droppedKernel, splitRows2] at hr
  rcases List.mem_append.mp hr with hmem | hmem
  · exact rows_after_drop (fun s hs => hker s (List.take_subset _ _ hs)) r hmem
  · exact rows_after_drop
      (fun s hs => hker s (List.drop_subset _ _ (List.take_subset _ _ hs))) r hmem

/-- The dropped kernel has as many rows as the declared split sizes. -/
theorem droppedKernel_length (cell : Cell) (e : TFEngine) (params : Params)
    (D Nh : ℕ) (hkl : params.kernel.length = D + Nh) :
    (droppedKernel cell e params D Nh).length = D + Nh := by
  simp only [droppedKernel, splitRows2]
  rw [List.length_append, length_after_drop, length_after_drop]
  simp [hkl]

/-- Width of the dropped kernel: the declared `4·num_units`. -/
theorem numCols_droppedKernel (cell : Cell) (e : TFEngine) (params : Params)
    (D N : ℕ) (hkl : params.kernel.length = D + N)
    (hker : ∀ r ∈ params.kernel, r.length = 4 * N) :
    numCols (droppedKernel cell e params D N) = 4 * N := by
  by_cases hDN : D + N = 0
  · have hN : N = 0 := by omega
    have hlen : (droppedKernel cell e params D N).length = 0 := by
      rw [droppedKernel_length cell e params D N hkl, hDN]
    rw [List.length_eq_zero.mp hlen, hN]
    rfl
  · have hne : droppedKernel cell e params D N ≠ [] := by
      intro hnil
      have hlen := droppedKernel_length cell e params D N hkl
      rw [hnil] at hlen
      exact hDN hlen.symm
    exact numCols_eq_of_rows hne (droppedKernel_rows cell e params D N hker)

/-- Every row of `_linear`'s output has the declared width `4·num_units`. -/
theorem linear_rows (cell : Cell) (e : TFEngine) (params : Params) (args : Mat)
    (D N : ℕ) (hkl : params.kernel.length = D + N)
    (hker : ∀ r ∈ params.kernel, r.length = 4 * N)
    (hbias : params.bias.length = 4 * N) :
    ∀ r ∈ linear cell e params args D N, r.length = 4 * N := by
  intro r hr
  have hcols := numCols_droppedKernel cell e params D N hkl hker
  simp only [linear] at hr
  by_cases hl : cell.layer_norm
  · rw [if_neg (by simp [hl])] at hr
    rw [mem_matmul_length hr, hcols]
  · rw [if_pos (by simp [hl])] at hr
    obtain ⟨row, hrow, rfl⟩ := List.mem_map.mp hr
    have hlr : row.length = 4 * N := by rw [mem_matmul_length hrow, hcols]
    simp [List.length_zipWith, hlr, hbias]

/-- `_linear` produces one row per row of `args`. -/
theorem linear_len (cell : Cell) (e : TFEngine) (params : Params) (args : Mat)
    (D N : ℕ) : (linear cell e params args D N).length = args.length := by
  simp only [linear]
  by_cases hl : cell.layer_norm
  · rw [if_neg (by simp [hl])]
    exact matmul_length args _
  · rw [if_pos (by simp [hl])]
    simp [biasAdd, matmul]

/-- On a tensor whose rows all have width `4·n`, `tf.split(·, 4, axis=1)`
yields exactly the four contiguous width-`n` blocks at offsets
`0, n, 2n, 3n`, in order. -/
theorem split4_eq_slices {t : Mat} {n : ℕ} (h : ∀ r ∈ t, r.length = 4 * n) :
    split4 t =
      (t.map (fun r => r.take n),
       t.map (fun r => (r.drop n).take n),
       t.map (fun r => (r.drop (2 * n)).take n),
       t.map (fun r => (r.drop (3 * n)).take n)) := by
  cases t with
  | nil => rfl
  | cons a l =>
      have ha : numCols (a :: l) = 4 * n := numCols_eq_of_rows (by simp) h
      simp only [split4]
      rw [ha, Nat.mul_div_cancel_left n (by norm_num : 0 < 4)]

/-- Columns of a row-concatenated matrix concatenate. -/
theorem getCol_append (a b : Mat) (j : ℕ) :
    getCol (a ++ b) j = getCol a j ++ getCol b j := by
  simp [getCol]

/-- A column has one entry per row. -/
theorem getCol_length (w : Mat) (j : ℕ) : (getCol w j).length = w.length := by
  simp [getCol]

/-- Projection through a row-concatenated weight matrix splits into the two
row blocks. -/
theorem matmul_append (args a b : Mat) :
    matmul args (a ++ b) =
      args.map (fun row =>
        (List.range (numCols (a ++ b))).map (fun j =>
          dotProd (row.take a.length) (getCol a j) +
            dotProd (row.drop a.length) (getCol b j))) := by
  unfold matmul
  apply List.map_congr_left
  intro row _
  apply List.map_congr_left
  intro j _
  rw [getCol_append, dotProd_append, getCol_length]

/-- Adding a bias row to a row written as a map over `range` folds the bias
into the map. -/
theorem zipWith_add_map_range (m : ℕ) (f : ℕ → ℚ) (bias : List ℚ)
    (hb : bias.length = m) :
    List.zipWith (· + ·) ((List.range m).map f) bias =
      (List.range m).map (fun j => f j + bias.getD j 0) := by
  apply List.ext_getElem
  · simp [hb]
  · intro i h1 h2
    have hib : i < bias.length := by
      simp only [List.length_map, List.length_range] at h2
      omega
    simp [List.getElem_zipWith, List.getD_eq_getElem bias 0 hib,
      List.getElem?_eq_getElem hib]

/-- The exact float `1.0` is not dropped. -/
theorem should_drop_float_one : should_drop (PyVal.float 1) = false := by decide

/-- The integer `1` is dropped (it is not a float). -/
theorem should_drop_int_one : should_drop (PyVal.int 1) = true := rfl

/-! ## Claim theorems -/

/-- C3: construction raises the configuration error exactly when
`weight_variational` is true and no `dtype` is supplied; every other
configuration constructs successfully (no other validation exists), and the
failing case raises the `ValueError` message. -/
theorem init_error_iff_weight_variational_without_dtype (cfg : Config) :
    ((∃ cell, init cfg = .ok cell) ↔
      ¬ (cfg.weight_variational = true ∧ cfg.dtype = none)) ∧
    (cfg.weight_variational = true → cfg.dtype = none →
      init cfg = .error "When weight_variational=True, dtype must be provided") := by
  constructor
  · constructor
    · rintro ⟨cell, hcell⟩ ⟨h1, h2⟩
      simp [init, h1, h2] at hcell
    · intro h
      exact ⟨_, by unfold init; rw [if_neg (by simpa using h)]⟩
  · intro h1 h2
    simp [init, h1, h2]

/-- C9: `__init__` performs no validation of `num_units`: any integer,
including zero and negative values, constructs successfully whenever the
weight-variational/dtype condition is satisfied, and the value surfaces only
through the declared `state_size` / `output_size` shapes. -/
theorem init_no_num_units_validation (cfg : Config)
    (h : ¬ (cfg.weight_variational = true ∧ cfg.dtype = none)) :
    ∃ cell, init cfg = .ok cell ∧
      state_size cell = (cfg.num_units, cfg.num_units) ∧
      output_size cell = cfg.num_units := by
  unfold init
  rw [if_neg (by simpa using h)]
  exact ⟨_, rfl, rfl, rfl⟩

/-- A configuration with a negative `num_units` and weight-variational off. -/
def cfgNegUnits : Config where
  num_units := -3
  activation := fun q => q

/-- C9 evaluated at the concrete configuration with `num_units = -3`. -/
theorem init_no_num_units_validation_witness :
    ¬ (cfgNegUnits.weight_variational = true ∧ cfgNegUnits.dtype = none) ∧
    (∃ cell, init cfgNegUnits = .ok cell ∧
      state_size cell = (cfgNegUnits.num_units, cfgNegUnits.num_units) ∧
      output_size cell = cfgNegUnits.num_units) :=
  ⟨by decide, init_no_num_units_validation cfgNegUnits (by decide)⟩

/-- C2 fails as stated: the float `2.0` is neither the float `1.0` nor a
non-constant scalar, so the claim says dropout is applied to it, yet
`_should_drop` returns `False` (its test is `p < 1`, not `p != 1.0`). -/
theorem should_drop_counterexample :
    ¬ ((should_drop (PyVal.float 2) = true) ↔
      (PyVal.float 2 ≠ PyVal.float 1 ∨ PyVal.float 2 = PyVal.tensor)) := by
  decide

/-- C2 amended: dropout is applied iff the keep probability is not a float
(e.g. a non-constant scalar or an int) or is a float strictly below 1; in
particular the exact float `1.0` disables dropout.  (On the documented float
range `(0, 1]` this coincides with "not exactly the float 1.0".) -/
theorem should_drop_iff_not_float_or_lt_one (p : PyVal) :
    (should_drop p = true ↔
      (p.is_float = false ∨ ∃ q, p = PyVal.float q ∧ q < 1)) ∧
    should_drop (PyVal.float 1) = false := by
  refine ⟨?_, by decide⟩
  cases p with
  | float q => simp [should_drop, PyVal.is_float]
  | int z => simp [should_drop, PyVal.is_float]
  | tensor => simp [should_drop, PyVal.is_float]

/-- C10: a non-float constant equal to one — the integer `1`, or a scalar
tensor — is treated as active, while the exact float `1.0` is the only
value-one form that disables dropout; moreover with `recurrent_keep_prob`
the integer `1` one call of the cell really invokes the dropout primitive on
`g` (an engine outcome that zeroes the dropped tensor changes the result),
while with the float `1.0` it does not. -/
theorem int_one_keep_prob_active :
    should_drop (PyVal.int 1) = true ∧
    should_drop PyVal.tensor = true ∧
    should_drop (PyVal.float 1) = false ∧
    call { sampleCell with recurrent_keep_prob := PyVal.int 1 } engZero
        paramsTiny inTiny (zTiny, zTiny) ≠
      call sampleCell engZero paramsTiny inTiny (zTiny, zTiny) := by
  refine ⟨should_drop_int_one, rfl, should_drop_float_one, ?_⟩
  simp [call, linear, droppedKernel, dropout, variational_dropout,
    WeightDropLayerNormBasicLSTMCell.norm, should_drop_float_one,
    should_drop_int_one, split4, splitRows2, matmul, concatCols, mapMat,
    addConstMat, mulMat, addMat, biasAdd, numCols, dotProd, getCol, sampleCell,
    paramsTiny, inTiny, zTiny, engZero, List.range_succ]

/-- A configuration whose constructed cell is exactly `sampleCell`. -/
def sampleConfig : Config where
  num_units := 1
  forget_bias := 1
  activation := fun q => q
  layer_norm := false
  norm_gain := 1
  norm_shift := 0
  recurrent_keep_prob := .float 1
  input_weight_keep_prob := .float 1
  recurrent_weight_keep_prob := .float 1
  dropout_seed := none
  weight_variational := false
  reuse := none
  dtype := none

/-- C5: the weight-variational dropout path has exactly the same effect as
the standard one: `_dropout` reduces to a single call of the engine's
`tf.nn.dropout` with the same arguments regardless of the
`weight_variational` flag (so toggling the flag never changes the result),
and a constructed cell's noise tensors are `None` — the fixed-mask
machinery is inactive. -/
theorem variational_dropout_equals_standard (cfg : Config) (cell : Cell)
    (hinit : init cfg = .ok cell) (e : TFEngine) (values : Mat)
    (noise : Option Unit) (keep : PyVal) :
    cell.input_weight_noise = none ∧ cell.recurrent_weight_noise = none ∧
    dropout cell e values noise keep = e.dropout values keep cell.dropout_seed ∧
    dropout { cell with weight_variational := true } e values noise keep =
      dropout { cell with weight_variational := false } e values noise keep := by
  have hnoise : cell.input_weight_noise = none ∧
      cell.recurrent_weight_noise = none := by
    unfold init at hinit
    split at hinit
    · exact absurd hinit (by simp)
    · injection hinit with hcell
      subst hcell
      exact ⟨rfl, rfl⟩
  refine ⟨hnoise.1, hnoise.2, dropout_eq cell e values noise keep, ?_⟩
  rw [dropout_eq, dropout_eq]

/-- C5 evaluated at a concrete configuration, cell and input. -/
theorem variational_dropout_equals_standard_witness :
    init sampleConfig = .ok sampleCell ∧
    (sampleCell.input_weight_noise = none ∧
     sampleCell.recurrent_weight_noise = none ∧
     dropout sampleCell engId zTiny none (PyVal.float 1) =
       engId.dropout zTiny (PyVal.float 1) sampleCell.dropout_seed ∧
     dropout { sampleCell with weight_variational := true } engId zTiny none
         (PyVal.float 1) =
       dropout { sampleCell with weight_variational := false } engId zTiny none
         (PyVal.float 1)) :=
  ⟨rfl, variational_dropout_equals_standard sampleConfig sampleCell rfl engId
    zTiny none (PyVal.float 1)⟩

/-- C6: with every keep probability exactly the float `1.0` and layer
normalization disabled, the step is deterministic: two engines that agree on
the deterministic `sigmoid` but have arbitrary — independently sampled —
dropout and normalization primitives produce identical results, so running
the same (input, state, parameters) twice yields bit-identical `new_h` and
`new_c`; no randomness is invoked on that path. -/
theorem call_deterministic_without_dropout (cell : Cell) (e1 e2 : TFEngine)
    (params : Params) (inputs c h : Mat)
    (h1 : cell.recurrent_keep_prob = PyVal.float 1)
    (h2 : cell.input_weight_keep_prob = PyVal.float 1)
    (h3 : cell.recurrent_weight_keep_prob = PyVal.float 1)
    (h4 : cell.layer_norm = false)
    (h5 : e1.sigmoid = e2.sigmoid) :
    call cell e1 params inputs (c, h) = call cell e2 params inputs (c, h) := by
  simp [call, linear, droppedKernel, h1, h2, h3, h4, h5, should_drop_float_one]

/-- C6 evaluated at a concrete cell, two concretely different engines and a
concrete input. -/
theorem call_deterministic_without_dropout_witness :
    sampleCell.recurrent_keep_prob = PyVal.float 1 ∧
    sampleCell.input_weight_keep_prob = PyVal.float 1 ∧
    sampleCell.recurrent_weight_keep_prob = PyVal.float 1 ∧
    sampleCell.layer_norm = false ∧
    engId.sigmoid = engZero.sigmoid ∧
    call sampleCell engId paramsTiny inTiny (zTiny, zTiny) =
      call sampleCell engZero paramsTiny inTiny (zTiny, zTiny) :=
  ⟨rfl, rfl, rfl, rfl, rfl,
    call_deterministic_without_dropout sampleCell engId engZero paramsTiny
      inTiny zTiny zTiny rfl rfl rfl rfl rfl⟩

/-- C4: `_linear` splits the single kernel row-wise into the input block
`W` (the first `D` rows) and the recurrent block `U` (the remaining
`num_units` rows); when the corresponding keep probability is active the
engine's dropout is applied independently to `W` and/or `U` — to the weight
blocks themselves, before the projection of the concatenated `[x, h]` — and
the learned width-`4·num_units` bias is added after the projection exactly
when layer normalization is disabled. -/
theorem linear_splits_weights_and_bias (cell : Cell) (e : TFEngine)
    (params : Params) (args : Mat) (D N : ℕ)
    (hkl : params.kernel.length = D + N)
    (hker : ∀ r ∈ params.kernel, r.length = 4 * N)
    (hbias : params.bias.length = 4 * N) :
    linear cell e params args D N =
      args.map (fun row =>
        (List.range (4 * N)).map (fun j =>
          dotProd (row.take D)
              (getCol (if should_drop cell.input_weight_keep_prob then
                e.dropout (params.kernel.take D) cell.input_weight_keep_prob
                  cell.dropout_seed
              else params.kernel.take D) j) +
            dotProd (row.drop D)
              (getCol (if should_drop cell.recurrent_weight_keep_prob then
                e.dropout (params.kernel.drop D) cell.recurrent_weight_keep_prob
                  cell.dropout_seed
              else params.kernel.drop D) j) +
            (if cell.layer_norm then 0 else params.bias.getD j 0))) := by
  have hu : (params.kernel.drop D).take N = params.kernel.drop D := by
    apply List.take_of_length_le
    rw [List.length_drop, hkl]
    omega
  have htake : (params.kernel.take D).length = D := by
    rw [List.length_take, hkl]
    omega
  set WD := (if should_drop cell.input_weight_keep_prob then
      e.dropout (params.kernel.take D) cell.input_weight_keep_prob
        cell.dropout_seed
    else params.kernel.take D) with hWDdef
  set UD := (if should_drop cell.recurrent_weight_keep_prob then
      e.dropout (params.kernel.drop D) cell.recurrent_weight_keep_prob
        cell.dropout_seed
    else params.kernel.drop D) with hUDdef
  have hdk : droppedKernel cell e params D N = WD ++ UD := by
    rw [hWDdef, hUDdef]
    simp only [droppedKernel, splitRows2, dropout_eq, hu]
  have hcols : numCols (WD ++ UD) = 4 * N := by
    rw [← hdk]
    exact numCols_droppedKernel cell e params D N hkl hker
  have hWDlen : WD.length = D := by
    rw [hWDdef]
    cases hsd : should_drop cell.input_weight_keep_prob with
    | false => simpa [hsd] using htake
    | true =>
        simp only [hsd, if_true]
        rw [length_of_shape_eq (e.dropout_shape (params.kernel.take D)
          cell.input_weight_keep_prob cell.dropout_seed)]
        exact htake
  simp only [linear]
  rw [hdk, matmul_append, hcols, hWDlen]
  cases hl : cell.layer_norm with
  | true =>
      rw [if_neg (by simp)]
      simp
  | false =>
      rw [if_pos (by simp)]
      simp only [Bool.false_eq_true, if_false]
      simp only [biasAdd, List.map_map]
      apply List.map_congr_left
      intro row _
      simp only [Function.comp_apply]
      rw [zipWith_add_map_range (4 * N) _ params.bias hbias]

/-- C4 evaluated at a concrete cell, engine, parameters and input. -/
theorem linear_splits_weights_and_bias_witness :
    paramsTiny.kernel.length = 1 + 1 ∧
    (∀ r ∈ paramsTiny.kernel, r.length = 4 * 1) ∧
    paramsTiny.bias.length = 4 * 1 ∧
    linear sampleCell engId paramsTiny [[1, 0]] 1 1 =
      [[(1 : ℚ), 0]].map (fun row =>
        (List.range (4 * 1)).map (fun j =>
          dotProd (row.take 1)
              (getCol (if should_drop sampleCell.input_weight_keep_prob then
                engId.dropout (paramsTiny.kernel.take 1)
                  sampleCell.input_weight_keep_prob sampleCell.dropout_seed
              else paramsTiny.kernel.take 1) j) +
            dotProd (row.drop 1)
              (getCol (if should_drop sampleCell.recurrent_weight_keep_prob then
                engId.dropout (paramsTiny.kernel.drop 1)
                  sampleCell.recurrent_weight_keep_prob sampleCell.dropout_seed
              else paramsTiny.kernel.drop 1) j) +
            (if sampleCell.layer_norm then 0 else paramsTiny.bias.getD j 0))) :=
  ⟨by decide, by decide, by decide,
    linear_splits_weights_and_bias sampleCell engId paramsTiny [[1, 0]] 1 1
      (by decide) (by decide) (by decide)⟩

/-- C1: one call of the cell splits the `4·num_units`-wide pre-activation of
`_linear` into four equal contiguous width-`num_units` blocks in the fixed
order `i, j, f, o` (offsets `0, N, 2N, 3N`), layer-normalizes each gate under
its own scope when normalization is enabled, computes `g = activation(j)`
with activation-level dropout applied to `g` exactly when the recurrent keep
probability is active, computes
`new_c = c ⊙ sigmoid(f + forget_bias) + sigmoid(i) ⊙ g` elementwise,
normalizes `new_c` under the `"state"` scope when layer normalization is
enabled, computes `new_h = activation(new_c) ⊙ sigmoid(o)`, and returns
`new_h` as the step output together with the state pair `(new_c, new_h)`. -/
theorem call_splits_gates_and_updates_state (cell : Cell) (e : TFEngine)
    (params : Params) (inputs c h : Mat) (N : ℕ)
    (hkl : params.kernel.length = numCols inputs + N)
    (hhN : numCols h = N)
    (hker : ∀ r ∈ params.kernel, r.length = 4 * N)
    (hbias : params.bias.length = 4 * N) :
    call cell e params inputs (c, h) =
      (let pre := linear cell e params (concatCols inputs h) (numCols inputs) N
       let i0 := pre.map (fun r => r.take N)
       let j0 := pre.map (fun r => (r.drop N).take N)
       let f0 := pre.map (fun r => (r.drop (2 * N)).take N)
       let o0 := pre.map (fun r => (r.drop (3 * N)).take N)
       let i := if cell.layer_norm then norm e i0 "input" else i0
       let j := if cell.layer_norm then norm e j0 "transform" else j0
       let f := if cell.layer_norm then norm e f0 "forget" else f0
       let o := if cell.layer_norm then norm e o0 "output" else o0
       let g0 := mapMat cell.activation j
       let g := if should_drop cell.recurrent_keep_prob then
           e.dropout g0 cell.recurrent_keep_prob cell.dropout_seed
         else g0
       let new_c0 :=
         addMat (mulMat c (mapMat e.sigmoid (addConstMat f cell.forget_bias)))
           (mulMat (mapMat e.sigmoid i) g)
       let new_c := if cell.layer_norm then norm e new_c0 "state" else new_c0
       let new_h := mulMat (mapMat cell.activation new_c) (mapMat e.sigmoid o)
       (new_h, (new_c, new_h))) := by
  have hpre : ∀ r ∈ linear cell e params (concatCols inputs h)
      (numCols inputs) N, r.length = 4 * N :=
    linear_rows cell e params (concatCols inputs h) (numCols inputs) N hkl
      hker hbias
  simp only [call]
  rw [hhN, split4_eq_slices hpre]

/-- C1 evaluated at a concrete cell, engine, parameters, input and state. -/
theorem call_splits_gates_and_updates_state_witness :
    paramsTiny.kernel.length = numCols inTiny + 1 ∧
    numCols zTiny = 1 ∧
    (∀ r ∈ paramsTiny.kernel, r.length = 4 * 1) ∧
    paramsTiny.bias.length = 4 * 1 ∧
    call sampleCell engId paramsTiny inTiny (zTiny, zTiny) =
      (let pre := linear sampleCell engId paramsTiny (concatCols inTiny zTiny)
         (numCols inTiny) 1
       let i0 := pre.map (fun r => r.take 1)
       let j0 := pre.map (fun r => (r.drop 1).take 1)
       let f0 := pre.map (fun r => (r.drop (2 * 1)).take 1)
       let o0 := pre.map (fun r => (r.drop (3 * 1)).take 1)
       let i := if sampleCell.layer_norm then norm engId i0 "input" else i0
       let j := if sampleCell.layer_norm then norm engId j0 "transform" else j0
       let f := if sampleCell.layer_norm then norm engId f0 "forget" else f0
       let o := if sampleCell.layer_norm then norm engId o0 "output" else o0
       let g0 := mapMat sampleCell.activation j
       let g := if should_drop sampleCell.recurrent_keep_prob then
           engId.dropout g0 sampleCell.recurrent_keep_prob
             sampleCell.dropout_seed
         else g0
       let new_c0 :=
         addMat (mulMat zTiny
             (mapMat engId.sigmoid (addConstMat f sampleCell.forget_bias)))
           (mulMat (mapMat engId.sigmoid i) g)
       let new_c := if sampleCell.layer_norm then norm engId new_c0 "state"
         else new_c0
       let new_h := mulMat (mapMat sampleCell.activation new_c)
         (mapMat engId.sigmoid o)
       (new_h, (new_c, new_h))) :=
  ⟨by decide, by decide, by decide, by decide,
    call_splits_gates_and_updates_state sampleCell engId paramsTiny inTiny
      zTiny zTiny 1 (by decide) (by decide) (by decide) (by decide)⟩

/-- Shape predicate: `b` rows, each of width `n`. -/
abbrev isMat (b n : ℕ) (t : Mat) : Prop :=
  t.length = b ∧ ∀ r ∈ t, r.length = n

/-- Shape transfer along an operation that preserves the row-length list. -/
theorem isMat_transfer {b n : ℕ} {t t' : Mat}
    (hsh : t'.map List.length = t.map List.length) (h : isMat b n t) :
    isMat b n t' :=
  ⟨(length_of_shape_eq hsh).trans h.1, rows_of_shape_eq hsh h.2⟩

/-- Elementwise maps preserve the shape. -/
theorem isMat_mapMat {b n : ℕ} {t : Mat} (f : ℚ → ℚ) (h : isMat b n t) :
    isMat b n (mapMat f t) := by
  constructor
  · simp [mapMat, h.1]
  · intro r hr
    obtain ⟨s, hs, rfl⟩ := List.mem_map.mp hr
    simp [h.2 s hs]

/-- Elementwise binary operations on two equal shapes keep the shape. -/
theorem isMat_zipWith2 {b n : ℕ} {t1 t2 : Mat} (f : ℚ → ℚ → ℚ)
    (h1 : isMat b n t1) (h2 : isMat b n t2) :
    isMat b n (List.zipWith (List.zipWith f) t1 t2) := by
  constructor
  · simp [List.length_zipWith, h1.1, h2.1]
  · intro r hr
    obtain ⟨x, hx, y, hy, rfl⟩ := mem_zipWith hr
    simp [List.length_zipWith, h1.2 x hx, h2.2 y hy]

/-- The four gates produced by `tf.split(·, 4, axis=1)` on a
`b × 4n` tensor are each `b × n`. -/
theorem isMat_split4 {b n : ℕ} {t : Mat} (h : isMat b (4 * n) t) :
    isMat b n (split4 t).1 ∧ isMat b n (split4 t).2.1 ∧
    isMat b n (split4 t).2.2.1 ∧ isMat b n (split4 t).2.2.2 := by
  rw [split4_eq_slices h.2]
  refine ⟨⟨by simp [h.1], ?_⟩, ⟨by simp [h.1], ?_⟩,
    ⟨by simp [h.1], ?_⟩, ⟨by simp [h.1], ?_⟩⟩ <;>
    intro r hr <;> obtain ⟨s, hs, rfl⟩ := List.mem_map.mp hr <;>
    have hsl := h.2 s hs <;>
    simp [List.length_take, List.length_drop, hsl] <;> omega

/-- The conditional per-gate normalization keeps the shape. -/
theorem isMat_ite_norm {b n : ℕ} {t : Mat} (e : TFEngine) (cond : Bool)
    (scope : String) (h : isMat b n t) :
    isMat b n (if cond then norm e t scope else t) := by
  cases cond with
  | false => simpa using h
  | true => simpa using isMat_transfer (e.layer_norm_shape scope t) h

/-- The conditional activation dropout on `g` keeps the shape. -/
theorem isMat_ite_dropout {b n : ℕ} {t : Mat} (e : TFEngine) (p : PyVal)
    (s : Option ℤ) (h : isMat b n t) :
    isMat b n (if should_drop p then e.dropout t p s else t) := by
  cases hsd : should_drop p with
  | false => simpa [hsd] using h
  | true => simpa [hsd] using isMat_transfer (e.dropout_shape t p s) h

/-- C7: the cell declares its state size as the ordered pair
`(num_units, num_units)` and its output size as `num_units`, and one call
on a `B × D` input with `B × N` state halves returns a `B × N` output and
`B × N` new state halves (kernel and bias well-formed for widths `D`, `N`). -/
theorem state_output_shape_contract (B D N : ℕ) (cell : Cell) (e : TFEngine)
    (params : Params) (inputs c h : Mat)
    (hnu : cell.num_units = (N : ℤ))
    (hin : isMat B D inputs) (hc : isMat B N c) (hh : isMat B N h)
    (hkl : params.kernel.length = D + N)
    (hker : ∀ r ∈ params.kernel, r.length = 4 * N)
    (hbias : params.bias.length = 4 * N) :
    state_size cell = ((N : ℤ), (N : ℤ)) ∧
    output_size cell = (N : ℤ) ∧
    isMat B N (call cell e params inputs (c, h)).1 ∧
    isMat B N (call cell e params inputs (c, h)).2.1 ∧
    isMat B N (call cell e params inputs (c, h)).2.2 := by
  have hargs_len : (concatCols inputs h).length = B := by
    simp [concatCols, List.length_zipWith, hin.1, hh.1]
  have hpre_len : (linear cell e params (concatCols inputs h)
      (numCols inputs) (numCols h)).length = B := by
    rw [linear_len]
    exact hargs_len
  have hpre_rows : ∀ r ∈ linear cell e params (concatCols inputs h)
      (numCols inputs) (numCols h), r.length = 4 * N := by
    rcases Nat.eq_zero_or_pos B with hB | hB
    · have hempty : linear cell e params (concatCols inputs h)
          (numCols inputs) (numCols h) = [] :=
        List.length_eq_zero.mp (by rw [hpre_len, hB])
      rw [hempty]
      intro r hr
      simp at hr
    · have hinne : inputs ≠ [] := by
        intro hnil
        rw [hnil] at hin
        have := hin.1
        simp at this
        omega
      have hhne : h ≠ [] := by
        intro hnil
        rw [hnil] at hh
        have := hh.1
        simp at this
        omega
      rw [numCols_eq_of_rows hinne hin.2, numCols_eq_of_rows hhne hh.2]
      exact linear_rows cell e params (concatCols inputs h) D N hkl hker hbias
  have hpre : isMat B (4 * N) (linear cell e params (concatCols inputs h)
      (numCols inputs) (numCols h)) := ⟨hpre_len, hpre_rows⟩
  obtain ⟨hi0, hj0, hf0, ho0⟩ := isMat_split4 hpre
  have hi := isMat_ite_norm e cell.layer_norm "input" hi0
  have hj := isMat_ite_norm e cell.layer_norm "transform" hj0
  have hf := isMat_ite_norm e cell.layer_norm "forget" hf0
  have ho := isMat_ite_norm e cell.layer_norm "output" ho0
  have hg := isMat_ite_dropout e cell.recurrent_keep_prob cell.dropout_seed
    (isMat_mapMat cell.activation hj)
  have hnc0 := isMat_zipWith2 (· + ·)
    (isMat_zipWith2 (· * ·) hc
      (isMat_mapMat e.sigmoid (isMat_mapMat (· + cell.forget_bias) hf)))
    (isMat_zipWith2 (· * ·) (isMat_mapMat e.sigmoid hi) hg)
  have hnc := isMat_ite_norm e cell.layer_norm "state" hnc0
  have hnh := isMat_zipWith2 (· * ·) (isMat_mapMat cell.activation hnc)
    (isMat_mapMat e.sigmoid ho)
  refine ⟨by simp [state_size, hnu], by simp [output_size, hnu], ?_, ?_, ?_⟩
  all_goals simp only [call]
  · exact hnh
  · exact hnc
  · exact hnh

/-- C7 evaluated at concrete sizes `B = D = N = 1`. -/
theorem state_output_shape_contract_witness :
    sampleCell.num_units = ((1 : ℕ) : ℤ) ∧
    isMat 1 1 inTiny ∧ isMat 1 1 zTiny ∧
    paramsTiny.kernel.length = 1 + 1 ∧
    (∀ r ∈ paramsTiny.kernel, r.length = 4 * 1) ∧
    paramsTiny.bias.length = 4 * 1 ∧
    state_size sampleCell = (((1 : ℕ) : ℤ), ((1 : ℕ) : ℤ)) ∧
    output_size sampleCell = ((1 : ℕ) : ℤ) ∧
    isMat 1 1 (call sampleCell engId paramsTiny inTiny (zTiny, zTiny)).1 ∧
    isMat 1 1 (call sampleCell engId paramsTiny inTiny (zTiny, zTiny)).2.1 ∧
    isMat 1 1 (call sampleCell engId paramsTiny inTiny (zTiny, zTiny)).2.2 := by
  refine ⟨by decide, by decide, by decide, by decide, by decide, by decide, ?_⟩
  exact state_output_shape_contract 1 1 1 sampleCell engId paramsTiny inTiny
    zTiny zTiny (by decide) (by decide) (by decide) (by decide) (by decide)
    (by decide) (by decide)

/-- The C8 scenario cell: `num_units = 4`, `forget_bias = 1.0`, no layer
normalization, every keep probability the float `1.0`, and the supplied
activation (tanh in the scenario; only `tanh 0 = 0` is used). -/
def cell8 (act : ℚ → ℚ) : Cell where
  num_units := 4
  forget_bias := 1
  activation := act
  layer_norm := false
  norm_gain := 1
  norm_shift := 0
  recurrent_keep_prob := .float 1
  input_weight_keep_prob := .float 1
  recurrent_weight_keep_prob := .float 1
  dropout_seed := none
  weight_variational := false
  reuse := none
  dtype := none
  input_weight_noise := none
  recurrent_weight_noise := none

/-- A row of 16 zeros (`4·num_units` for `num_units = 4`). -/
def row16 : List ℚ := [0, 0, 0, 0, 0, 0, 0, 0, 0, 0, 0, 0, 0, 0, 0, 0]

/-- Zero parameters for the C8 scenario: a `(1 + 4) × 16` zero kernel
(input width 1) and a zero bias of width 16. -/
def params8 : Params where
  kernel := [row16, row16, row16, row16, row16]
  bias := row16

/-- The 1 × 1 zero input of the C8 scenario. -/
def zeroIn8 : Mat := [[0]]

/-- A 1 × 4 zero tensor (the zero state rows and the expected outputs). -/
def zeros14 : Mat := [[0, 0, 0, 0]]

/-- C8: with `num_units = 4`, `forget_bias = 1.0`, `layer_norm` off, all
keep probabilities the float `1.0`, a zero kernel and bias, zero input and
zero state, one call returns `new_h` and `new_c` both equal to the zero
vector of width 4 — for any engine and any activation vanishing at 0 (such
as tanh). -/
theorem zero_cell_zero_step (e : TFEngine) (act : ℚ → ℚ) (hact : act 0 = 0) :
    call (cell8 act) e params8 zeroIn8 (zeros14, zeros14) =
      (zeros14, (zeros14, zeros14)) := by
  simp [call, linear, droppedKernel, dropout, variational_dropout,
    should_drop_float_one, split4, splitRows2, matmul, concatCols, mapMat,
    addConstMat, mulMat, addMat, biasAdd, numCols, dotProd, getCol, cell8,
    params8, row16, zeroIn8, zeros14, hact, List.range_succ]

/-- C8 evaluated at a concrete engine and a concrete activation vanishing
at 0. -/
theorem zero_cell_zero_step_witness :
    (fun _ : ℚ => (0 : ℚ)) 0 = 0 ∧
    call (cell8 (fun _ => 0)) engId params8 zeroIn8 (zeros14, zeros14) =
      (zeros14, (zeros14, zeros14)) :=
  ⟨rfl, zero_cell_zero_step engId (fun _ => 0) rfl⟩

/-- A configuration requesting weight-variational mode without a dtype. -/
def cfgWv : Config where
  num_units := 2
  activation := fun q => q
  weight_variational := true

/-- C3 evaluated at a concrete configuration that violates the
weight-variational/dtype condition. -/
theorem init_error_iff_weight_variational_without_dtype_witness :
    ((∃ cell, init cfgWv = .ok cell) ↔
      ¬ (cfgWv.weight_variational = true ∧ cfgWv.dtype = none)) ∧
    (cfgWv.weight_variational = true → cfgWv.dtype = none →
      init cfgWv = .error "When weight_variational=True, dtype must be provided") :=
  init_error_iff_weight_variational_without_dtype cfgWv
